import Mathlib

/-!
Shallow embedding of the quotation-desktop application's core logic
(storage layer `src/lib/storage.ts`, quotation pages
`src/pages/quotations/New.tsx`, the reports page and the dashboard page),
together with theorems settling the specification's claims.

Numbers (JavaScript `number` values used for quantities, prices, rates)
are modelled as rationals; identifiers, timestamps and dates as strings.
Effectful identifier/timestamp generation (`crypto.randomUUID()`,
`new Date().toISOString()`) is modelled by passing the fresh value as an
explicit argument.  Storage state (the collection files) is modelled as a
`Store` record of lists, and each storage operation as a pure function on
that state.
-/

namespace QuotationDesktop

/-! ## Data model (from `src/types/database.ts`) -/

/-- `BudgetType` from `database.ts`. -/
inductive BudgetType where
  | korek_communication
  | ma
deriving DecidableEq, Repr

/-- `CurrencyType` from `database.ts`: `"usd" | "iqd"`. -/
inductive CurrencyType where
  | usd
  | iqd
deriving DecidableEq, Repr

/-- `QuotationStatus` from `database.ts`. -/
inductive QuotationStatus where
  | draft
  | pending
  | rejected
  | approved
  | invoiced
deriving DecidableEq, Repr

/-- `DocumentType` from `database.ts`: `"quotation" | "invoice" | "other"`. -/
inductive DocumentType where
  | quotation
  | invoice
  | other
deriving DecidableEq, Repr

/-- `Vendor` record from `database.ts`. -/
structure Vendor where
  id : String
  name : String
  created_at : String
  updated_at : String
deriving DecidableEq, Repr

/-- `Recipient` record from `database.ts`. -/
structure Recipient where
  id : String
  name : String
  created_at : String
  updated_at : String
deriving DecidableEq, Repr

/-- `Category` record from `database.ts`. -/
structure Category where
  id : String
  name : String
  created_at : String
  updated_at : String
deriving DecidableEq, Repr

/-- `ItemType` record from `database.ts`. -/
structure ItemType where
  id : String
  name : String
  created_at : String
  updated_at : String
deriving DecidableEq, Repr

/-- `ExchangeRate` record from `database.ts`. -/
structure ExchangeRate where
  id : String
  rate : ℚ
  date : String
  created_at : String
  updated_at : String
deriving DecidableEq, Repr

/-- `Settings` record from `database.ts`. -/
structure Settings where
  id : String
  company_address : Option String
  logo_url : Option String
  created_at : String
  updated_at : String
deriving DecidableEq, Repr

/-- `QuotationItemRecord` from `database.ts`. -/
structure QuotationItemRecord where
  id : String
  quotation_id : String
  name : String
  description : Option String
  quantity : ℚ
  type_id : Option String
  category_id : Option String
  unit_price : ℚ
  price : ℚ
  total_price : ℚ
  created_at : String
  updated_at : String
deriving DecidableEq, Repr

/-- `Quotation` record from `database.ts`. -/
structure Quotation where
  id : String
  quotation_number : String
  project_name : String
  date : String
  validity_date : String
  budget_type : BudgetType
  recipient : String
  currency_type : CurrencyType
  vendor_id : Option String
  vendor_cost : ℚ
  vendor_currency_type : CurrencyType
  discount : ℚ
  note : Option String
  description : Option String
  status : QuotationStatus
  created_at : String
  updated_at : String
deriving DecidableEq, Repr

/-- `VendorDocument` record from `database.ts`. -/
structure VendorDocument where
  id : String
  quotation_id : String
  file_name : String
  file_path : String
  file_size : ℚ
  file_type : String
  document_type : DocumentType
  created_at : String
  updated_at : String
deriving DecidableEq, Repr

/-- `QuotationWithItems` from `database.ts`: a quotation together with its
joined items (the vendor and document joins are not needed by the claims
settled here and are recomputable from the store). -/
structure QuotationWithItems extends Quotation where
  quotation_items : List QuotationItemRecord
deriving DecidableEq, Repr

/-! ## Storage state

The nine JSON collection files managed by `storage.ts`, as one record. -/

/-- The full storage state: one list per collection file. -/
structure Store where
  quotations : List Quotation
  quotation_items : List QuotationItemRecord
  vendors : List Vendor
  recipients : List Recipient
  categories : List Category
  item_types : List ItemType
  exchange_rates : List ExchangeRate
  settings : List Settings
  vendor_documents : List VendorDocument
deriving DecidableEq, Repr

/-- The empty storage state (all collection files absent read as `[]`). -/
def Store.empty : Store :=
  ⟨[], [], [], [], [], [], [], [], []⟩

/-! ## Export / import (from `storage.ts`, `exportAllData` / `importData`) -/

/-- `ExportData` from `database.ts`, as received by `importData`: since
an incoming bundle is arbitrary JSON cast to this interface, every
collection field may be missing, which we model with `Option` (a
present-but-empty array is `some []`, an absent key is `none`). -/
structure ExportData where
  quotations : Option (List Quotation)
  quotation_items : Option (List QuotationItemRecord)
  vendors : Option (List Vendor)
  recipients : Option (List Recipient)
  categories : Option (List Category)
  item_types : Option (List ItemType)
  exchange_rates : Option (List ExchangeRate)
  settings : Option (List Settings)
  vendor_documents : Option (List VendorDocument)
  exported_at : String
  version : String
deriving DecidableEq, Repr

/-- The `{ success, message }` result of `importData`. -/
structure ImportResult where
  success : Bool
  message : String
deriving DecidableEq, Repr

/-- `exportAllData` from `storage.ts`: reads the eight exported collections
(notably NOT `vendor_documents.json`) and bundles them with a timestamp and
version tag.  The export timestamp `ts` models `now()`. -/
def exportAllData (s : Store) (ts : String) : ExportData :=
  { quotations := some s.quotations
    quotation_items := some s.quotation_items
    vendors := some s.vendors
    recipients := some s.recipients
    categories := some s.categories
    item_types := some s.item_types
    exchange_rates := some s.exchange_rates
    settings := some s.settings
    vendor_documents := none
    exported_at := ts
    version := "1.0.0" }

/-- `importData` from `storage.ts`: validates that the seven mandatory
collection keys are present (JavaScript truthiness on an array field is
exactly presence: `[]` is truthy), then overwrites the eight files
`quotations` … `settings`, with `data.settings || []` defaulting an absent
settings key to `[]`.  `vendor_documents.json` is never written. -/
def importData (d : ExportData) (s : Store) : ImportResult × Store :=
  if d.quotations.isNone ∨ d.quotation_items.isNone ∨ d.vendors.isNone ∨
     d.recipients.isNone ∨ d.categories.isNone ∨ d.item_types.isNone ∨
     d.exchange_rates.isNone then
    (⟨false, "Invalid data format"⟩, s)
  else
    (⟨true, "Data imported successfully"⟩,
     { s with
        quotations := d.quotations.getD []
        quotation_items := d.quotation_items.getD []
        vendors := d.vendors.getD []
        recipients := d.recipients.getD []
        categories := d.categories.getD []
        item_types := d.item_types.getD []
        exchange_rates := d.exchange_rates.getD []
        settings := d.settings.getD [] })

/-! ## Quotation deletion (from `storage.ts`, `deleteQuotation`) -/

/-- `deleteQuotation` from `storage.ts`: filters the quotation out of
`quotations.json`; returns `false` without writing when nothing was
removed; otherwise also filters items with that `quotation_id` out of
`quotation_items.json`.  Vendor documents are not touched. -/
def deleteQuotation (id : String) (s : Store) : Bool × Store :=
  let filtered := s.quotations.filter (fun q => q.id != id)
  if filtered.length = s.quotations.length then (false, s)
  else
    let filteredItems := s.quotation_items.filter (fun i => i.quotation_id != id)
    (true, { s with quotations := filtered, quotation_items := filteredItems })

/-! ## Lookup-entity creation (from `storage.ts`) -/

/-- `createVendor` from `storage.ts`: case-insensitive name lookup, return
the existing record unchanged if found, else append a freshly minted
record.  `freshId` models `generateId()`, `ts` models `now()`. -/
def createVendor (name freshId ts : String) (s : Store) : Vendor × Store :=
  match s.vendors.find? (fun v => v.name.toLower == name.toLower) with
  | some v => (v, s)
  | none =>
      let newVendor : Vendor := ⟨freshId, name, ts, ts⟩
      (newVendor, { s with vendors := s.vendors ++ [newVendor] })

/-- `createRecipient` from `storage.ts` (same create-or-reuse shape). -/
def createRecipient (name freshId ts : String) (s : Store) : Recipient × Store :=
  match s.recipients.find? (fun r => r.name.toLower == name.toLower) with
  | some r => (r, s)
  | none =>
      let newRecipient : Recipient := ⟨freshId, name, ts, ts⟩
      (newRecipient, { s with recipients := s.recipients ++ [newRecipient] })

/-- `createCategory` from `storage.ts` (same create-or-reuse shape). -/
def createCategory (name freshId ts : String) (s : Store) : Category × Store :=
  match s.categories.find? (fun c => c.name.toLower == name.toLower) with
  | some c => (c, s)
  | none =>
      let newCategory : Category := ⟨freshId, name, ts, ts⟩
      (newCategory, { s with categories := s.categories ++ [newCategory] })

/-- `createItemType` from `storage.ts` (same create-or-reuse shape). -/
def createItemType (name freshId ts : String) (s : Store) : ItemType × Store :=
  match s.item_types.find? (fun t => t.name.toLower == name.toLower) with
  | some t => (t, s)
  | none =>
      let newItemType : ItemType := ⟨freshId, name, ts, ts⟩
      (newItemType, { s with item_types := s.item_types ++ [newItemType] })

/-! ## Quotation number generation (from `storage.ts`,
`generateQuotationNumber`) -/

/-- JavaScript `s.startsWith(pre)`. -/
def jsStartsWith (s pre : String) : Bool :=
  pre.data.isPrefixOf s.data

/-- JavaScript `s.replace(pat, "")` for a plain-string pattern: remove the
first occurrence of `pat`, leave the string unchanged when `pat` does not
occur. -/
def jsReplaceFirst (cs pat : List Char) : List Char :=
  match cs with
  | [] => []
  | c :: rest =>
      if pat.isPrefixOf (c :: rest) then (c :: rest).drop pat.length
      else c :: jsReplaceFirst rest pat

/-- Numeric value of a decimal digit character. -/
def digitVal (c : Char) : Nat :=
  c.toNat - 48

/-- Value of a run of decimal digit characters, most significant first. -/
def parseDigits (cs : List Char) : Nat :=
  cs.foldl (fun n c => 10 * n + digitVal c) 0

/-- The optional leading sign consumed by `parseInt`: whether it is a
minus, and the remaining characters. -/
def splitSign (cs : List Char) : Bool × List Char :=
  match cs with
  | c :: rest =>
      if c = '-' then (true, rest)
      else if c = '+' then (false, rest)
      else (false, cs)
  | [] => (false, [])

/-- JavaScript `parseInt(s, 10)`: skip leading whitespace, consume an
optional sign, then the longest run of decimal digits; `NaN` (modelled as
`none`) when that run is empty. -/
def parseIntJS (s : String) : Option Int :=
  let cs := s.data.dropWhile (fun c => c.isWhitespace)
  let sr := splitSign cs
  let ds := sr.2.takeWhile (fun c => c.isDigit)
  if ds.isEmpty then none
  else if sr.1 then some (-(parseDigits ds : Int))
  else some ((parseDigits ds : Int))

/-- One decimal digit character. -/
def decimalDigit : Nat → Char
  | 0 => '0'
  | 1 => '1'
  | 2 => '2'
  | 3 => '3'
  | 4 => '4'
  | 5 => '5'
  | 6 => '6'
  | 7 => '7'
  | 8 => '8'
  | _ => '9'

/-- Accumulator loop for the decimal rendering of a natural number. -/
def natToDigitsAux (n : Nat) (acc : List Char) : List Char :=
  if h : n = 0 then acc
  else natToDigitsAux (n / 10) (decimalDigit (n % 10) :: acc)
termination_by n
decreasing_by exact Nat.div_lt_self (Nat.pos_of_ne_zero h) (by norm_num)

/-- JavaScript `String(n)` for a natural number: its decimal digits. -/
def natToDigits (n : Nat) : List Char :=
  if n = 0 then ['0'] else natToDigitsAux n []

/-- JavaScript `str.padStart(4, "0")`. -/
def padStart4 (cs : List Char) : List Char :=
  List.replicate (4 - cs.length) '0' ++ cs

/-- The per-year prefix `` `QT-${year}-` `` of `generateQuotationNumber`. -/
def prefixFor (year : Nat) : String :=
  "QT-" ++ toString year ++ "-"

/-- The numeric suffix extraction of `generateQuotationNumber`:
`parseInt(q.quotation_number.replace(prefix, ""), 10)`. -/
def suffixNum (pre s : String) : Option Int :=
  parseIntJS ⟨jsReplaceFirst s.data pre.data⟩

/-- `generateQuotationNumber` from `storage.ts`, applied to the stored
quotation numbers and the current calendar year: filter to the numbers
starting with this year's prefix, fold up the maximal parsed suffix
(ignoring `NaN`s, starting from 0), and render `maxNum + 1` zero-padded to
at least 4 digits.  `maxNum` starts at 0 and never decreases, so
`(maxNum + 1).toNat` is exactly the JavaScript `maxNum + 1`. -/
def generateQuotationNumber (numbers : List String) (year : Nat) : String :=
  let pre := prefixFor year
  let yearNumbers := numbers.filter (fun s => jsStartsWith s pre)
  let maxNum : Int := yearNumbers.foldl (fun m s =>
    match suffixNum pre s with
    | some n => if n > m then n else m
    | none => m) 0
  pre ++ ⟨padStart4 (natToDigits (maxNum + 1).toNat)⟩

/-- The numeric suffixes of the stored numbers carrying the year's prefix
(the values `generateQuotationNumber` maximises over). -/
def yearSuffixes (numbers : List String) (year : Nat) : List Int :=
  (numbers.filter (fun s => jsStartsWith s (prefixFor year))).filterMap
    (suffixNum (prefixFor year))

/-- The maximum the generator computes: the `max` fold (seeded with 0)
over the numeric suffixes of the current year's numbers. -/
def maxSuffix (numbers : List String) (year : Nat) : Int :=
  (yearSuffixes numbers year).foldl max 0

/-! ## New-quotation page (from `src/pages/quotations/New.tsx`) -/

/-- The local `QuotationItem` interface of `New.tsx` (the form's working
item, before it is persisted as a `QuotationItemRecord`). -/
structure UIQuotationItem where
  id : String
  name : String
  description : String
  quantity : ℚ
  type_id : Option String
  unit_price : ℚ
  price : ℚ
  total_price : ℚ
deriving DecidableEq, Repr

/-- One field assignment `{ ...item, [field]: value }` of `updateItem` in
`New.tsx`: which `keyof QuotationItem` is written, with its value. -/
inductive ItemField where
  | id (v : String)
  | name (v : String)
  | description (v : String)
  | quantity (v : ℚ)
  | typeId (v : Option String)
  | unitPrice (v : ℚ)
  | price (v : ℚ)
  | totalPrice (v : ℚ)
deriving DecidableEq, Repr

/-- The spread-assignment `{ ...item, [field]: value }`. -/
def setField (it : UIQuotationItem) : ItemField → UIQuotationItem
  | .id v => { it with id := v }
  | .name v => { it with name := v }
  | .description v => { it with description := v }
  | .quantity v => { it with quantity := v }
  | .typeId v => { it with type_id := v }
  | .unitPrice v => { it with unit_price := v }
  | .price v => { it with price := v }
  | .totalPrice v => { it with total_price := v }

/-- The test `field === 'quantity' || field === 'unit_price'` in
`updateItem`. -/
def isPriceField : ItemField → Bool
  | .quantity _ => true
  | .unitPrice _ => true
  | _ => false

/-- The recalculation block of `updateItem`:
`updated.price = updated.quantity * updated.unit_price;`
`updated.total_price = updated.price;` (sequential assignments). -/
def recalcTotals (it : UIQuotationItem) : UIQuotationItem :=
  let it1 := { it with price := it.quantity * it.unit_price }
  { it1 with total_price := it1.price }

/-- `updateItem` from `New.tsx`: map over the items, leave non-matching ids
unchanged, apply the field assignment, and recompute `price`/`total_price`
when the changed field is `quantity` or `unit_price`. -/
def updateItem (items : List UIQuotationItem) (id : String) (f : ItemField) :
    List UIQuotationItem :=
  items.map (fun it =>
    if it.id != id then it
    else
      let updated := setField it f
      if isPriceField f then recalcTotals updated else updated)

/-- The fresh item literal of `addItem` in `New.tsx` (`freshId` models
`crypto.randomUUID()`). -/
def newItem (freshId : String) : UIQuotationItem :=
  ⟨freshId, "", "", 1, none, 0, 0, 0⟩

/-- `addItem` from `New.tsx`: append the fresh item. -/
def addItem (freshId : String) (items : List UIQuotationItem) :
    List UIQuotationItem :=
  items ++ [newItem freshId]

/-- `const total = items.reduce((sum, item) => sum + item.total_price, 0)`
in the `NewQuotation` component of `New.tsx`. -/
def newPageTotal (items : List UIQuotationItem) : ℚ :=
  items.foldl (fun sum it => sum + it.total_price) 0

/-- `const finalTotal = total - discount` in `NewQuotation` (discount as a
flat amount). -/
def newPageFinalTotal (items : List UIQuotationItem) (discount : ℚ) : ℚ :=
  newPageTotal items - discount

/-- The subtotal of the `ViewQuotation` component in `New.tsx`:
`quotation?.quotation_items?.reduce((sum, item) => sum + Number(item.total_price), 0) || 0`. -/
def viewPageSubtotal (items : List QuotationItemRecord) : ℚ :=
  items.foldl (fun sum it => sum + it.total_price) 0

/-- `const discountAmount = (subtotal * (quotation?.discount || 0)) / 100`
in `ViewQuotation` (discount as a percentage of the subtotal). -/
def viewPageDiscountAmount (subtotal discount : ℚ) : ℚ :=
  subtotal * discount / 100

/-- `const total = subtotal - discountAmount` in `ViewQuotation`. -/
def viewPageTotal (subtotal discount : ℚ) : ℚ :=
  subtotal - viewPageDiscountAmount subtotal discount

/-- The spec's worked example: quantities `{2,1,3}` with unit prices
`{100,50,20}`, hence item totals `{200,50,60}`. -/
def exampleItems : List UIQuotationItem :=
  [⟨"i1", "a", "", 2, none, 100, 200, 200⟩,
   ⟨"i2", "b", "", 1, none, 50, 50, 50⟩,
   ⟨"i3", "c", "", 3, none, 20, 60, 60⟩]

/-! ## Exchange rates and the dashboard (from `storage.ts` and the
dashboard page) -/

/-- `getLatestExchangeRate` from `storage.ts`: none when no rates exist,
else the first record after sorting by date descending.  `dateVal` models
the external `new Date(d).getTime()` used by the comparator. -/
def getLatestExchangeRate (dateVal : String → ℚ) (rates : List ExchangeRate) :
    Option ExchangeRate :=
  (rates.insertionSort (fun a b => dateVal b.date ≤ dateVal a.date)).head?

/-- `const exchangeRate = exchangeRateData?.rate || 1` on the dashboard
page: 1 when no rate record exists (and also when the stored rate is the
falsy 0). -/
def effectiveRate (r : Option ExchangeRate) : ℚ :=
  match r with
  | some er => if er.rate = 0 then 1 else er.rate
  | none => 1

/-- The per-quotation term of the dashboard's `totalProfit` reduce:
items total, minus the flat discount, each amount multiplied by the
exchange rate when its currency is USD, then net minus vendor cost. -/
def quoteProfit (rate : ℚ) (q : QuotationWithItems) : ℚ :=
  let itemsTotal := q.quotation_items.foldl (fun sum it => sum + it.total_price) 0
  let finalTotal := itemsTotal - q.discount
  let vendorCostInIQD :=
    if q.vendor_currency_type == CurrencyType.usd then q.vendor_cost * rate
    else q.vendor_cost
  let finalTotalInIQD :=
    if q.currency_type == CurrencyType.usd then finalTotal * rate else finalTotal
  finalTotalInIQD - vendorCostInIQD

/-- The dashboard's `totalProfit`: sum of `quoteProfit` over the
quotations whose status is `invoiced`. -/
def totalProfit (rate : ℚ) (qs : List QuotationWithItems) : ℚ :=
  (qs.filter (fun q => q.status == QuotationStatus.invoiced)).foldl
    (fun sum q => sum + quoteProfit rate q) 0

/-- The dashboard's total profit wired to the stored exchange rates. -/
def dashboardTotalProfit (dateVal : String → ℚ) (rates : List ExchangeRate)
    (qs : List QuotationWithItems) : ℚ :=
  totalProfit (effectiveRate (getLatestExchangeRate dateVal rates)) qs

/-- Follows the spec's words (C8): normalize an amount to local currency —
multiply by the rate when it is USD-denominated, pass through unchanged
otherwise. -/
def specNormalize (rate : ℚ) (c : CurrencyType) (amount : ℚ) : ℚ :=
  if c = CurrencyType.usd then amount * rate else amount

/-- Follows the spec's words (C8): a quotation's net total is the sum of
its items' `total_price` minus the discount. -/
def specNetTotal (q : QuotationWithItems) : ℚ :=
  (q.quotation_items.map (fun it => it.total_price)).sum - q.discount

/-- Follows the spec's words (C8): total profit is the sum, over exactly
the invoiced quotations, of normalized net total minus normalized vendor
cost. -/
def specTotalProfit (rate : ℚ) (qs : List QuotationWithItems) : ℚ :=
  ((qs.filter (fun q => q.status == QuotationStatus.invoiced)).map
    (fun q => specNormalize rate q.currency_type (specNetTotal q)
      - specNormalize rate q.vendor_currency_type q.vendor_cost)).sum

/-! ## Reports page aggregation (from the reports page, `reportData`) -/

/-- The status string stored in JSON / compared by the status filter. -/
def statusString : QuotationStatus → String
  | .draft => "draft"
  | .pending => "pending"
  | .rejected => "rejected"
  | .approved => "approved"
  | .invoiced => "invoiced"

/-- The reports page's `filteredQuotations`: keep quotations whose date is
in range and whose status matches the filter (or the filter is `"all"`).
`inRange` models the external `isWithinInterval(parseISO(q.date), ...)`. -/
def filterQuotations (inRange : String → Bool) (statusFilter : String)
    (qs : List QuotationWithItems) : List QuotationWithItems :=
  qs.filter (fun q =>
    inRange q.date && (statusFilter == "all" || statusString q.status == statusFilter))

/-- One aggregation bucket of the reports page's `typeStats` record. -/
structure TypeStats where
  typeName : String
  quantity : ℚ
  totalAmount : ℚ
  quotationCount : Nat
deriving DecidableEq, Repr

/-- `item.type_id || 'no_type'`: `null` and the empty string are falsy. -/
def typeIdOf (it : QuotationItemRecord) : String :=
  match it.type_id with
  | some t => if t = "" then "no_type" else t
  | none => "no_type"

/-- The initial `typeStats` record: one zero bucket per known item type,
plus the synthetic `no_type` bucket.  The JavaScript object is modelled as
an association list in insertion order. -/
def initStats (itemTypes : List ItemType) : List (String × TypeStats) :=
  itemTypes.map (fun t => (t.id, ⟨t.name, 0, 0, 0⟩)) ++ [("no_type", ⟨"No Type", 0, 0, 0⟩)]

/-- Key presence in the `typeStats` record. -/
def hasKey (m : List (String × TypeStats)) (k : String) : Bool :=
  m.any (fun p => p.1 == k)

/-- The on-demand `Unknown` bucket creation (`if (!typeStats[typeId])`). -/
def ensureKey (m : List (String × TypeStats)) (k : String) : List (String × TypeStats) :=
  if hasKey m k then m else m ++ [(k, ⟨"Unknown", 0, 0, 0⟩)]

/-- In-place update of the bucket stored under a key (JavaScript object
keys are unique, so updating the first occurrence is the object update). -/
def updateFirst (k : String) (f : TypeStats → TypeStats) :
    List (String × TypeStats) → List (String × TypeStats)
  | [] => []
  | p :: rest => if p.1 = k then (p.1, f p.2) :: rest else p :: updateFirst k f rest

/-- `typeStats[typeId].quantity += item.quantity;`
`typeStats[typeId].totalAmount += item.total_price;` -/
def addItemStats (it : QuotationItemRecord) (st : TypeStats) : TypeStats :=
  { st with
      quantity := st.quantity + it.quantity
      totalAmount := st.totalAmount + it.total_price }

/-- `typeStats[typeId].quotationCount += 1;` -/
def bumpQuotationCount (st : TypeStats) : TypeStats :=
  { st with quotationCount := st.quotationCount + 1 }

/-- Processing of one item in the aggregation loop: resolve the bucket
key, create the bucket on demand, add quantity and amount, and count the
quotation once per (quotation, type) pair via the seen-key list. -/
def stepItem (qid : String) (acc : List (String × TypeStats) × List String)
    (it : QuotationItemRecord) : List (String × TypeStats) × List String :=
  let typeId := typeIdOf it
  let m1 := ensureKey acc.1 typeId
  let m2 := updateFirst typeId (addItemStats it) m1
  let key := qid ++ "-" ++ typeId
  if acc.2.contains key then (m2, acc.2)
  else (updateFirst typeId bumpQuotationCount m2, key :: acc.2)

/-- The nested `forEach` over filtered quotations and their items. -/
def aggregateQuotations (qs : List QuotationWithItems)
    (init : List (String × TypeStats)) : List (String × TypeStats) × List String :=
  qs.foldl (fun acc q => q.quotation_items.foldl (stepItem q.id) acc) (init, [])

/-- The reports page's `reportData`: aggregate, drop buckets with neither
positive quantity nor positive amount, and sort descending by amount. -/
def reportData (itemTypes : List ItemType) (qs : List QuotationWithItems) :
    List (String × TypeStats) :=
  ((aggregateQuotations qs (initStats itemTypes)).1.filter
      (fun p => decide (0 < p.2.quantity) || decide (0 < p.2.totalAmount))).insertionSort
    (fun a b => b.2.totalAmount ≤ a.2.totalAmount)

/-- Total amount over a list of buckets. -/
def sumAmount (m : List (String × TypeStats)) : ℚ :=
  (m.map (fun p => p.2.totalAmount)).sum

/-- The sum of `total_price` over every item of every quotation. -/
def allItemsTotal (qs : List QuotationWithItems) : ℚ :=
  (qs.map (fun q => (q.quotation_items.map (fun it => it.total_price)).sum)).sum

/-- The character class produced by decimal rendering: a digit character,
hence not whitespace and not a sign; exactly what `parseIntJS` needs to
read the whole rendered string back. -/
def GoodDigit (c : Char) : Prop :=
  c.isDigit = true ∧ c.isWhitespace = false ∧ c ≠ '-' ∧ c ≠ '+'

instance (c : Char) : Decidable (GoodDigit c) := by
  unfold GoodDigit
  infer_instance

/-! ## Concrete example data (for counterexamples and witnesses) -/

/-- The spec's C8 example: an invoiced quotation with net total 300 USD
(one item of total 300, no discount) and vendor cost 100 USD. -/
def exampleInvoicedQuotation : QuotationWithItems :=
  { id := "q1"
    quotation_number := "QT-2024-0001"
    project_name := "p"
    date := "2024-01-02"
    validity_date := "2024-02-02"
    budget_type := BudgetType.ma
    recipient := "r"
    currency_type := CurrencyType.usd
    vendor_id := none
    vendor_cost := 100
    vendor_currency_type := CurrencyType.usd
    discount := 0
    note := none
    description := none
    status := QuotationStatus.invoiced
    created_at := "t"
    updated_at := "t"
    quotation_items :=
      [⟨"i1", "q1", "n", none, 1, none, none, 300, 300, 300, "t", "t"⟩] }

/-- A concrete item type for the C7 witness. -/
def exampleItemType : ItemType :=
  ⟨"t1", "Type 1", "t", "t"⟩

/-- A concrete vendor document for the C9 counterexample. -/
def exampleDocument : VendorDocument :=
  ⟨"doc1", "q1", "offer.pdf", "/docs/offer.pdf", 1024, "application/pdf",
   DocumentType.quotation, "t0", "t0"⟩

/-- A store already holding one vendor document. -/
def storeWithDocument : Store :=
  { Store.empty with vendor_documents := [exampleDocument] }

/-- A valid import bundle (all seven mandatory keys present, empty) with
both optional collections absent. -/
def bundleWithoutOptional : ExportData :=
  ⟨some [], some [], some [], some [], some [], some [], some [],
   none, none, "t1", "1.0.0"⟩

/-! ## Helper lemmas -/

/-- If some element of `l` fails the predicate, filtering shortens the list. -/
theorem filter_length_ne_of_mem {α} (l : List α) (p : α → Bool) (x : α)
    (hx : x ∈ l) (hpx : p x = false) : (l.filter p).length ≠ l.length := by
  intro h
  have h2 : ∀ y ∈ l, p y := by simpa using h
  simpa [hpx] using h2 x hx

/-- A JavaScript-style `reduce((s, x) => s + f(x), a)` is `a` plus the sum
of the mapped values. -/
theorem foldl_add_eq_sum {α} (f : α → ℚ) (l : List α) (a : ℚ) :
    l.foldl (fun s x => s + f x) a = a + (l.map f).sum := by
  induction l generalizing a with
  | nil => simp
  | cons x t ih => simp [ih, add_assoc]

/-! ## Claim C4: export/import round trip -/

/-- C4: running `importData` on the bundle produced by `exportAllData`
reports success and leaves the entire store — hence every collection's
record set, identifiers included — exactly as it was before the export. -/
theorem importData_exportAllData_roundtrip (s : Store) (ts : String) :
    (importData (exportAllData s ts) s).2 = s ∧
    (importData (exportAllData s ts) s).1.success = true :=
  ⟨rfl, rfl⟩

/-! ## Claim C5: quotation deletion -/

/-- C5: if the id is present, `deleteQuotation` returns `true`, removes
exactly the quotations with that id and the items whose `quotation_id`
equals it (keeping all others), and leaves vendor documents in place; if
the id is absent it returns `false` and leaves the store unchanged. -/
theorem deleteQuotation_spec (id : String) (s : Store) :
    ((∃ q ∈ s.quotations, q.id = id) →
      (deleteQuotation id s).1 = true ∧
      (∀ q ∈ (deleteQuotation id s).2.quotations, q.id ≠ id) ∧
      (∀ q ∈ s.quotations, q.id ≠ id → q ∈ (deleteQuotation id s).2.quotations) ∧
      (∀ it ∈ (deleteQuotation id s).2.quotation_items, it.quotation_id ≠ id) ∧
      (∀ it ∈ s.quotation_items, it.quotation_id ≠ id →
        it ∈ (deleteQuotation id s).2.quotation_items) ∧
      (deleteQuotation id s).2.vendor_documents = s.vendor_documents) ∧
    ((∀ q ∈ s.quotations, q.id ≠ id) → deleteQuotation id s = (false, s)) := by
  constructor
  · rintro ⟨q0, hq0, hq0id⟩
    have hne : (s.quotations.filter (fun q => q.id != id)).length ≠ s.quotations.length := by
      refine filter_length_ne_of_mem _ _ q0 hq0 ?_
      simp [hq0id]
    have hdel : deleteQuotation id s =
        (true, { s with
            quotations := s.quotations.filter (fun q => q.id != id),
            quotation_items := s.quotation_items.filter (fun i => i.quotation_id != id) }) := by
      simp only [deleteQuotation, if_neg hne]
    rw [hdel]
    refine ⟨rfl, ?_, ?_, ?_, ?_, rfl⟩
    · intro q hq
      have := (List.mem_filter.mp hq).2
      simpa using this
    · intro q hq hqid
      exact List.mem_filter.mpr ⟨hq, by simpa using hqid⟩
    · intro it hit
      have := (List.mem_filter.mp hit).2
      simpa using this
    · intro it hit hitid
      exact List.mem_filter.mpr ⟨hit, by simpa using hitid⟩
  · intro hall
    have heq : s.quotations.filter (fun q => q.id != id) = s.quotations := by
      refine List.filter_eq_self.mpr ?_
      intro q hq
      simpa using hall q hq
    simp only [deleteQuotation, heq]
    simp

/-- Witness for C5 at a concrete store: a one-quotation, one-item store with
a matching item and an unrelated vendor document. -/
theorem deleteQuotation_spec_witness :
    (∃ q ∈ (⟨[⟨"q1", "QT-2024-0001", "p", "d", "v", BudgetType.ma, "r",
        CurrencyType.iqd, none, 0, CurrencyType.iqd, 0, none, none,
        QuotationStatus.draft, "t", "t"⟩], [], [], [], [], [], [], [],
        []⟩ : Store).quotations, q.id = "q1") ∧
    (deleteQuotation "q1" (⟨[⟨"q1", "QT-2024-0001", "p", "d", "v",
        BudgetType.ma, "r", CurrencyType.iqd, none, 0, CurrencyType.iqd, 0,
        none, none, QuotationStatus.draft, "t", "t"⟩], [], [], [], [], [],
        [], [], []⟩ : Store)).1 = true := by
  refine ⟨by decide, ?_⟩
  exact ((deleteQuotation_spec "q1" _).1 (by decide)).1

/-! ## Claim C6: idempotent lookup-entity creation -/

/-- C6: for a name not yet present (case-insensitively), calling the
lookup-entity creator twice — with any case variation of the name the
second time — returns a record with the same id both times and grows the
collection by exactly one; this holds for `createVendor`,
`createRecipient`, `createCategory` and `createItemType` alike. -/
theorem createLookup_idempotent (s : Store) (name name2 fid1 fid2 ts1 ts2 : String)
    (hcase : name2.toLower = name.toLower)
    (hv : ∀ v ∈ s.vendors, v.name.toLower ≠ name.toLower)
    (hr : ∀ r ∈ s.recipients, r.name.toLower ≠ name.toLower)
    (hc : ∀ c ∈ s.categories, c.name.toLower ≠ name.toLower)
    (ht : ∀ t ∈ s.item_types, t.name.toLower ≠ name.toLower) :
    ((createVendor name2 fid2 ts2 (createVendor name fid1 ts1 s).2).1.id
        = (createVendor name fid1 ts1 s).1.id ∧
      (createVendor name2 fid2 ts2 (createVendor name fid1 ts1 s).2).2.vendors.length
        = s.vendors.length + 1) ∧
    ((createRecipient name2 fid2 ts2 (createRecipient name fid1 ts1 s).2).1.id
        = (createRecipient name fid1 ts1 s).1.id ∧
      (createRecipient name2 fid2 ts2 (createRecipient name fid1 ts1 s).2).2.recipients.length
        = s.recipients.length + 1) ∧
    ((createCategory name2 fid2 ts2 (createCategory name fid1 ts1 s).2).1.id
        = (createCategory name fid1 ts1 s).1.id ∧
      (createCategory name2 fid2 ts2 (createCategory name fid1 ts1 s).2).2.categories.length
        = s.categories.length + 1) ∧
    ((createItemType name2 fid2 ts2 (createItemType name fid1 ts1 s).2).1.id
        = (createItemType name fid1 ts1 s).1.id ∧
      (createItemType name2 fid2 ts2 (createItemType name fid1 ts1 s).2).2.item_types.length
        = s.item_types.length + 1) := by
  refine ⟨?_, ?_, ?_, ?_⟩
  · have hfind1 : s.vendors.find? (fun v => v.name.toLower == name.toLower) = none :=
      List.find?_eq_none.mpr (fun v hv' => by simpa using hv v hv')
    have hfind1' : s.vendors.find? (fun v => v.name.toLower == name2.toLower) = none :=
      List.find?_eq_none.mpr (fun v hv' => by simpa [hcase] using hv v hv')
    simp only [createVendor, hfind1]
    rw [List.find?_append, hfind1']
    simp [hcase]
  · have hfind1 : s.recipients.find? (fun r => r.name.toLower == name.toLower) = none :=
      List.find?_eq_none.mpr (fun r hr' => by simpa using hr r hr')
    have hfind1' : s.recipients.find? (fun r => r.name.toLower == name2.toLower) = none :=
      List.find?_eq_none.mpr (fun r hr' => by simpa [hcase] using hr r hr')
    simp only [createRecipient, hfind1]
    rw [List.find?_append, hfind1']
    simp [hcase]
  · have hfind1 : s.categories.find? (fun c => c.name.toLower == name.toLower) = none :=
      List.find?_eq_none.mpr (fun c hc' => by simpa using hc c hc')
    have hfind1' : s.categories.find? (fun c => c.name.toLower == name2.toLower) = none :=
      List.find?_eq_none.mpr (fun c hc' => by simpa [hcase] using hc c hc')
    simp only [createCategory, hfind1]
    rw [List.find?_append, hfind1']
    simp [hcase]
  · have hfind1 : s.item_types.find? (fun t => t.name.toLower == name.toLower) = none :=
      List.find?_eq_none.mpr (fun t ht' => by simpa using ht t ht')
    have hfind1' : s.item_types.find? (fun t => t.name.toLower == name2.toLower) = none :=
      List.find?_eq_none.mpr (fun t ht' => by simpa [hcase] using ht t ht')
    simp only [createItemType, hfind1]
    rw [List.find?_append, hfind1']
    simp [hcase]

/-- Witness for C6 at the empty store with the name "Acme" twice. -/
theorem createLookup_idempotent_witness :
    ("Acme".toLower = "Acme".toLower) ∧
    ((createVendor "Acme" "id2" "t2" (createVendor "Acme" "id1" "t1" Store.empty).2).1.id
        = (createVendor "Acme" "id1" "t1" Store.empty).1.id ∧
      (createVendor "Acme" "id2" "t2" (createVendor "Acme" "id1" "t1" Store.empty).2).2.vendors.length
        = Store.empty.vendors.length + 1) := by
  refine ⟨rfl, ?_⟩
  exact (createLookup_idempotent Store.empty "Acme" "Acme" "id1" "id2" "t1" "t2"
    rfl (by simp [Store.empty]) (by simp [Store.empty]) (by simp [Store.empty])
    (by simp [Store.empty])).1

/-! ## Claim C9: import validation -/

/-- C9 counterexample: importing a valid bundle with no vendor-documents
key succeeds, yet the vendor-documents collection does not default to
empty — the pre-existing document survives the import. -/
theorem importData_vendor_documents_not_defaulted :
    (importData bundleWithoutOptional storeWithDocument).1.success = true ∧
    (importData bundleWithoutOptional storeWithDocument).2.vendor_documents ≠ [] := by
  constructor
  · rfl
  · decide

/-- C9 as amended: `importData` succeeds exactly when the seven mandatory
collection keys are present; when any is missing it returns the failure
message and writes no collection; when the optional settings key is absent
the stored settings are replaced by the empty collection; the vendor
documents collection is never written by import — it stays exactly as it
was, whether or not the bundle carries one. -/
theorem importData_validation (d : ExportData) (s : Store) :
    ((importData d s).1.success = true ↔
      (d.quotations.isSome ∧ d.quotation_items.isSome ∧ d.vendors.isSome ∧
       d.recipients.isSome ∧ d.categories.isSome ∧ d.item_types.isSome ∧
       d.exchange_rates.isSome)) ∧
    ((d.quotations.isNone ∨ d.quotation_items.isNone ∨ d.vendors.isNone ∨
        d.recipients.isNone ∨ d.categories.isNone ∨ d.item_types.isNone ∨
        d.exchange_rates.isNone) →
      (importData d s) = (⟨false, "Invalid data format"⟩, s)) ∧
    (((importData d s).1.success = true ∧ d.settings = none) →
      (importData d s).2.settings = []) ∧
    (importData d s).2.vendor_documents = s.vendor_documents := by
  by_cases hbad : d.quotations.isNone ∨ d.quotation_items.isNone ∨ d.vendors.isNone ∨
      d.recipients.isNone ∨ d.categories.isNone ∨ d.item_types.isNone ∨
      d.exchange_rates.isNone
  · have himp : importData d s = (⟨false, "Invalid data format"⟩, s) := by
      simp only [importData, if_pos hbad]
    rw [himp]
    refine ⟨?_, fun _ => rfl, ?_, rfl⟩
    · simp only [Bool.false_eq_true, false_iff]
      intro hall
      rcases hbad with h | h | h | h | h | h | h <;>
        simp_all [Option.isNone_iff_eq_none, Option.isSome_iff_ne_none]
    · rintro ⟨hsucc, -⟩
      simp at hsucc
  · have himp : importData d s =
        (⟨true, "Data imported successfully"⟩,
         { s with
            quotations := d.quotations.getD []
            quotation_items := d.quotation_items.getD []
            vendors := d.vendors.getD []
            recipients := d.recipients.getD []
            categories := d.categories.getD []
            item_types := d.item_types.getD []
            exchange_rates := d.exchange_rates.getD []
            settings := d.settings.getD [] }) := by
      simp only [importData, if_neg hbad]
    rw [himp]
    push_neg at hbad
    refine ⟨?_, ?_, ?_, rfl⟩
    · simp only [true_iff]
      obtain ⟨h1, h2, h3, h4, h5, h6, h7⟩ := hbad
      simp_all [Option.isNone_iff_eq_none, Option.isSome_iff_ne_none]
    · intro hcontra
      rcases hcontra with h | h | h | h | h | h | h <;> simp_all
    · rintro ⟨-, hset⟩
      simp [hset]

/-- Witness for C9 at the concrete bundle/store of the counterexample
setup: the bundle misses no mandatory key, so success holds. -/
theorem importData_validation_witness :
    ((importData bundleWithoutOptional storeWithDocument).1.success = true ∧
      bundleWithoutOptional.settings = none) ∧
    (importData bundleWithoutOptional storeWithDocument).2.settings = [] := by
  have h := (importData_validation bundleWithoutOptional storeWithDocument).2.2.1
  refine ⟨⟨rfl, rfl⟩, h ⟨rfl, rfl⟩⟩

/-! ## Helper lemmas for quotation-number generation -/

/-- Every output of `decimalDigit` is a good digit character. -/
theorem goodDigit_decimalDigit (d : Nat) : GoodDigit (decimalDigit d) := by
  match d with
  | 0 => decide
  | 1 => decide
  | 2 => decide
  | 3 => decide
  | 4 => decide
  | 5 => decide
  | 6 => decide
  | 7 => decide
  | 8 => decide
  | n + 9 => exact (by decide : GoodDigit '9')

/-- Rendering a digit below ten and reading it back is the identity. -/
theorem digitVal_decimalDigit (d : Nat) (h : d < 10) :
    digitVal (decimalDigit d) = d := by
  match d with
  | 0 => decide
  | 1 => decide
  | 2 => decide
  | 3 => decide
  | 4 => decide
  | 5 => decide
  | 6 => decide
  | 7 => decide
  | 8 => decide
  | 9 => decide
  | n + 10 => omega

/-- Base equation of the rendering loop. -/
theorem natToDigitsAux_zero (acc : List Char) : natToDigitsAux 0 acc = acc := by
  rw [natToDigitsAux]
  simp

/-- Step equation of the rendering loop. -/
theorem natToDigitsAux_step (n : Nat) (acc : List Char) (h : n ≠ 0) :
    natToDigitsAux n acc = natToDigitsAux (n / 10) (decimalDigit (n % 10) :: acc) := by
  rw [natToDigitsAux]
  simp [h]

/-- The accumulator of the rendering loop is simply appended. -/
theorem natToDigitsAux_append (n : Nat) :
    ∀ acc, natToDigitsAux n acc = natToDigitsAux n [] ++ acc := by
  induction n using Nat.strong_induction_on with
  | _ n ih =>
    intro acc
    by_cases h : n = 0
    · subst h
      rw [natToDigitsAux_zero, natToDigitsAux_zero]
      simp
    · have hlt : n / 10 < n := Nat.div_lt_self (Nat.pos_of_ne_zero h) (by norm_num)
      rw [natToDigitsAux_step n acc h, natToDigitsAux_step n [] h,
          ih (n / 10) hlt (decimalDigit (n % 10) :: acc),
          ih (n / 10) hlt [decimalDigit (n % 10)]]
      simp

/-- Every character produced by the rendering loop satisfies any property
that all decimal digit characters and all accumulator characters satisfy. -/
theorem natToDigitsAux_mem {P : Char → Prop} (hP : ∀ d, P (decimalDigit d)) (n : Nat) :
    ∀ acc, (∀ c ∈ acc, P c) → ∀ c ∈ natToDigitsAux n acc, P c := by
  induction n using Nat.strong_induction_on with
  | _ n ih =>
    intro acc hacc c hc
    by_cases h : n = 0
    · subst h
      rw [natToDigitsAux_zero] at hc
      exact hacc c hc
    · have hlt : n / 10 < n := Nat.div_lt_self (Nat.pos_of_ne_zero h) (by norm_num)
      rw [natToDigitsAux_step n acc h] at hc
      refine ih (n / 10) hlt _ ?_ c hc
      intro x hx
      rcases List.mem_cons.mp hx with rfl | hx
      · exact hP _
      · exact hacc x hx

/-- Reading the rendering of a positive number from any initial
accumulator value. -/
theorem parseDigits_natToDigitsAux (n : Nat) (hn : n ≠ 0) :
    ∀ a : Nat, (natToDigitsAux n []).foldl (fun m c => 10 * m + digitVal c) a
      = a * 10 ^ (natToDigitsAux n []).length + n := by
  induction n using Nat.strong_induction_on with
  | _ n ih =>
    intro a
    have hlt : n / 10 < n := Nat.div_lt_self (Nat.pos_of_ne_zero hn) (by norm_num)
    have hsplit : natToDigitsAux n []
        = natToDigitsAux (n / 10) [] ++ [decimalDigit (n % 10)] := by
      rw [natToDigitsAux_step n [] hn, natToDigitsAux_append (n / 10)]
    by_cases h10 : n / 10 = 0
    · rw [hsplit, h10, natToDigitsAux_zero]
      have hmod : n % 10 = n := by omega
      simp only [List.nil_append, List.foldl_cons, List.foldl_nil,
        List.length_cons, List.length_nil, zero_add, pow_one, hmod]
      rw [digitVal_decimalDigit n (by omega)]
      ring
    · rw [hsplit, List.foldl_append, List.length_append,
          ih (n / 10) hlt h10 a]
      simp only [List.foldl_cons, List.foldl_nil, List.length_cons, List.length_nil]
      rw [digitVal_decimalDigit (n % 10) (Nat.mod_lt n (by omega))]
      have hdm : 10 * (n / 10) + n % 10 = n := Nat.div_add_mod n 10
      rw [pow_succ]
      ring_nf
      omega

/-- Reading back the decimal rendering of a natural number. -/
theorem parseDigits_natToDigits (n : Nat) : parseDigits (natToDigits n) = n := by
  by_cases h : n = 0
  · subst h
    decide
  · unfold natToDigits parseDigits
    rw [if_neg h, parseDigits_natToDigitsAux n h 0]
    simp

/-- Zero-padding does not change the parsed value. -/
theorem parseDigits_padStart4 (cs : List Char) :
    parseDigits (padStart4 cs) = parseDigits cs := by
  unfold padStart4 parseDigits
  rw [List.foldl_append]
  have hz : ∀ k, (List.replicate k '0').foldl (fun m c => 10 * m + digitVal c) 0 = 0 := by
    intro k
    induction k with
    | zero => rfl
    | succ k ihk => simpa [List.replicate_succ] using ihk
  rw [hz]

/-- Every character of the padded rendering is a good digit. -/
theorem goodDigit_padded (n : Nat) : ∀ c ∈ padStart4 (natToDigits n), GoodDigit c := by
  intro c hc
  rcases List.mem_append.mp hc with h | h
  · rw [List.eq_of_mem_replicate h]
    decide
  · unfold natToDigits at h
    by_cases h0 : n = 0
    · rw [if_pos h0] at h
      simp only [List.mem_singleton] at h
      rw [h]
      decide
    · rw [if_neg h0] at h
      exact natToDigitsAux_mem goodDigit_decimalDigit n [] (by simp) c h

/-- `parseIntJS` reads a nonempty string of good digit characters back as
its decimal value. -/
theorem parseIntJS_digits (cs : List Char) (h : ∀ c ∈ cs, GoodDigit c)
    (hne : cs ≠ []) : parseIntJS ⟨cs⟩ = some ((parseDigits cs : Nat) : Int) := by
  cases cs with
  | nil => exact absurd rfl hne
  | cons c rest =>
      have hc := h c (List.mem_cons_self c rest)
      have hdw : (c :: rest).dropWhile (fun x => x.isWhitespace) = c :: rest := by
        rw [List.dropWhile_cons, hc.2.1]
        simp
      have hsign : splitSign (c :: rest) = (false, c :: rest) := by
        simp only [splitSign]
        rw [if_neg hc.2.2.1, if_neg hc.2.2.2]
      have htw : (c :: rest).takeWhile (fun x => x.isDigit) = c :: rest :=
        List.takeWhile_eq_self_iff.mpr (fun x hx => (h x hx).1)
      unfold parseIntJS
      simp only [show (String.mk (c :: rest)).data = c :: rest from rfl,
        hdw, hsign, htw]
      simp

/-- The maximum-tracking fold of `generateQuotationNumber` equals a `max`
fold over the successfully parsed suffixes. -/
theorem foldl_suffix_max (pre : String) (l : List String) :
    ∀ m : Int, l.foldl (fun m s =>
        match suffixNum pre s with
        | some n => if n > m then n else m
        | none => m) m
      = (l.filterMap (suffixNum pre)).foldl max m := by
  induction l with
  | nil => intro m; rfl
  | cons x t ih =>
      intro m
      cases hx : suffixNum pre x with
      | none => simp [List.foldl_cons, List.filterMap_cons, hx, ih]
      | some n =>
          have hmax : (if n > m then n else m) = max m n := by
            rcases le_or_lt n m with hnm | hnm
            · rw [if_neg (not_lt.mpr hnm), max_eq_left hnm]
            · rw [if_pos hnm, max_eq_right hnm.le]
          simp [List.foldl_cons, List.filterMap_cons, hx, ih, hmax]

/-- A `max` fold can only grow its seed. -/
theorem le_foldl_max (l : List Int) : ∀ a : Int, a ≤ l.foldl max a := by
  induction l with
  | nil => intro a; simp
  | cons x t ih => intro a; exact le_trans (le_max_left a x) (ih (max a x))

/-- A `max` fold dominates every list element. -/
theorem mem_le_foldl_max (l : List Int) : ∀ a : Int, ∀ n ∈ l, n ≤ l.foldl max a := by
  induction l with
  | nil => intro a n hn; simp at hn
  | cons x t ih =>
      intro a n hn
      rcases List.mem_cons.mp hn with rfl | hn
      · exact le_trans (le_max_right a n) (le_foldl_max t (max a n))
      · exact ih (max a x) n hn

/-- A `max` fold returns either its seed or a list element. -/
theorem foldl_max_mem (l : List Int) : ∀ a : Int, l.foldl max a = a ∨ l.foldl max a ∈ l := by
  induction l with
  | nil => intro a; left; rfl
  | cons x t ih =>
      intro a
      rcases ih (max a x) with h | h
      · rcases max_choice a x with hax | hax
        · left
          rw [List.foldl_cons, h, hax]
        · right
          rw [List.foldl_cons, h, hax]
          exact List.mem_cons_self x t
      · right
        exact List.mem_cons_of_mem x h

/-- Removing the first occurrence of a nonempty pattern from a string that
starts with it strips exactly that leading pattern. -/
theorem jsReplaceFirst_append (pat x : List Char) (hne : pat ≠ []) :
    jsReplaceFirst (pat ++ x) pat = x := by
  cases pat with
  | nil => exact absurd rfl hne
  | cons p pt =>
      have hpre : (p :: pt).isPrefixOf ((p :: pt) ++ x) = true := by
        rw [List.isPrefixOf_iff_prefix]
        exact List.prefix_append (p :: pt) x
      rw [List.cons_append]
      unfold jsReplaceFirst
      rw [← List.cons_append, if_pos hpre, List.drop_left]

/-- The year prefix is a nonempty string. -/
theorem prefixFor_data_ne_nil (year : Nat) : (prefixFor year).data ≠ [] := by
  unfold prefixFor
  rw [String.data_append]
  simp [show ("QT-" : String).data = ['Q', 'T', '-'] from rfl]

/-! ## Claim C2: quotation number generation -/

/-- C2: when the stored numeric suffixes for the year are nonnegative, the
generated quotation number consists of the year's prefix followed by a
zero-padded block of at least four digit characters; its numeric suffix is
`maxSuffix + 1`, where `maxSuffix` is 0 when no number carries the year's
prefix and otherwise the maximum stored suffix for the year; hence the new
suffix is strictly greater than every previously assigned one. -/
theorem generateQuotationNumber_spec (numbers : List String) (year : Nat)
    (h : ∀ n ∈ yearSuffixes numbers year, 0 ≤ n) :
    ∃ ds : List Char,
      (generateQuotationNumber numbers year).data = (prefixFor year).data ++ ds ∧
      (∀ c ∈ ds, c.isDigit = true) ∧
      4 ≤ ds.length ∧
      suffixNum (prefixFor year) (generateQuotationNumber numbers year)
        = some (maxSuffix numbers year + 1) ∧
      (∀ n ∈ yearSuffixes numbers year, n < maxSuffix numbers year + 1) ∧
      (yearSuffixes numbers year = [] → maxSuffix numbers year = 0) ∧
      (yearSuffixes numbers year ≠ [] →
        maxSuffix numbers year ∈ yearSuffixes numbers year) := by
  have hM0 : 0 ≤ maxSuffix numbers year := le_foldl_max _ 0
  have hgen : generateQuotationNumber numbers year
      = prefixFor year ++ ⟨padStart4 (natToDigits (maxSuffix numbers year + 1).toNat)⟩ := by
    simp only [generateQuotationNumber, maxSuffix, yearSuffixes, foldl_suffix_max]
  refine ⟨padStart4 (natToDigits (maxSuffix numbers year + 1).toNat), ?_, ?_, ?_, ?_, ?_, ?_, ?_⟩
  · rw [hgen, String.data_append]
  · intro c hc
    exact (goodDigit_padded _ c hc).1
  · unfold padStart4
    rw [List.length_append, List.length_replicate]
    omega
  · have hlen : 4 ≤ (padStart4 (natToDigits (maxSuffix numbers year + 1).toNat)).length := by
      unfold padStart4
      rw [List.length_append, List.length_replicate]
      omega
    have hne : padStart4 (natToDigits (maxSuffix numbers year + 1).toNat) ≠ [] := by
      intro heq
      rw [heq] at hlen
      simp at hlen
    unfold suffixNum
    rw [hgen, String.data_append,
        show (String.mk (padStart4 (natToDigits (maxSuffix numbers year + 1).toNat))).data
          = padStart4 (natToDigits (maxSuffix numbers year + 1).toNat) from rfl,
        jsReplaceFirst_append _ _ (prefixFor_data_ne_nil year),
        parseIntJS_digits _ (goodDigit_padded _) hne,
        parseDigits_padStart4, parseDigits_natToDigits,
        Int.toNat_of_nonneg (by omega)]
  · intro n hn
    have := mem_le_foldl_max (yearSuffixes numbers year) 0 n hn
    unfold maxSuffix
    omega
  · intro he
    unfold maxSuffix
    rw [he]
    rfl
  · intro hne
    rcases foldl_max_mem (yearSuffixes numbers year) 0 with h0 | hm
    · obtain ⟨x, hx⟩ := List.exists_mem_of_ne_nil _ hne
      have hx1 : x ≤ (yearSuffixes numbers year).foldl max 0 :=
        mem_le_foldl_max _ 0 x hx
      have hx2 : 0 ≤ x := h x hx
      have hxeq : maxSuffix numbers year = x := by
        unfold maxSuffix
        omega
      rw [hxeq]
      exact hx
    · exact hm

/-- Witness for C2 at an empty store and year 2026: the nonnegativity
hypothesis holds vacuously. -/
theorem generateQuotationNumber_spec_witness :
    (∀ n ∈ yearSuffixes [] 2026, 0 ≤ n) ∧
    ∃ ds : List Char,
      (generateQuotationNumber [] 2026).data = (prefixFor 2026).data ++ ds ∧
      (∀ c ∈ ds, c.isDigit = true) ∧
      4 ≤ ds.length ∧
      suffixNum (prefixFor 2026) (generateQuotationNumber [] 2026)
        = some (maxSuffix [] 2026 + 1) ∧
      (∀ n ∈ yearSuffixes [] 2026, n < maxSuffix [] 2026 + 1) ∧
      (yearSuffixes [] 2026 = [] → maxSuffix [] 2026 = 0) ∧
      (yearSuffixes [] 2026 ≠ [] → maxSuffix [] 2026 ∈ yearSuffixes [] 2026) :=
  ⟨by simp [yearSuffixes],
   generateQuotationNumber_spec [] 2026 (by simp [yearSuffixes])⟩

/-! ## Claim C1: item price invariant -/

/-- C1: a freshly created form item satisfies
`price = quantity × unit_price` and `total_price = price`, and after any
`updateItem` call whose changed field is `quantity` or `unit_price`, every
item carrying the updated id satisfies the same two equations. -/
theorem updateItem_price_invariant (items : List UIQuotationItem) (id : String)
    (f : ItemField) (freshId : String) :
    ((newItem freshId).price = (newItem freshId).quantity * (newItem freshId).unit_price ∧
      (newItem freshId).total_price = (newItem freshId).price) ∧
    (isPriceField f = true →
      ∀ it ∈ updateItem items id f, it.id = id →
        it.price = it.quantity * it.unit_price ∧ it.total_price = it.price) := by
  refine ⟨⟨by simp [newItem], rfl⟩, ?_⟩
  intro hf it hit hitid
  obtain ⟨orig, horig, heq⟩ := List.mem_map.mp hit
  by_cases hid : orig.id = id
  · have hbeq : (orig.id != id) = false := by simp [hid]
    rw [hbeq] at heq
    simp only [Bool.false_eq_true, if_false, hf, if_true] at heq
    subst heq
    cases f <;> simp_all [recalcTotals, setField, isPriceField]
  · have hbeq : (orig.id != id) = true := by simp [hid]
    rw [hbeq] at heq
    simp only [if_true] at heq
    subst heq
    exact absurd hitid hid

/-- Witness for C1: updating the quantity of the only item to 3 restores
the invariant on that item. -/
theorem updateItem_price_invariant_witness :
    isPriceField (ItemField.quantity 3) = true ∧
    (∀ it ∈ updateItem [⟨"a", "n", "d", 2, none, 5, 99, 99⟩] "a"
        (ItemField.quantity 3), it.id = "a" →
      it.price = it.quantity * it.unit_price ∧ it.total_price = it.price) :=
  ⟨rfl, (updateItem_price_invariant [⟨"a", "n", "d", 2, none, 5, 99, 99⟩]
    "a" (ItemField.quantity 3) "x").2 rfl⟩

/-! ## Claim C3: net total and discount conventions -/

/-- C3 counterexample: on the view page, a quotation with subtotal 310 and
discount 10 does not get net total `310 - 10 = 300`; the discount is
applied as a percentage there, giving 279. -/
theorem viewPageTotal_not_flat_discount :
    viewPageTotal 310 10 ≠ 310 - 10 := by
  norm_num [viewPageTotal, viewPageDiscountAmount]

/-- C3 as amended: the net-total convention differs by call site.  The
creation page computes subtotal minus the discount as a flat amount — so
the spec's example items (totals `{200,50,60}`) with discount 10 give net
total 300 — while the view page subtracts `subtotal × discount / 100`,
giving 279 for the same subtotal 310 and discount 10. -/
theorem netTotal_conventions (items : List UIQuotationItem) (subtotal discount : ℚ) :
    newPageFinalTotal items discount = (items.map (·.total_price)).sum - discount ∧
    viewPageTotal subtotal discount = subtotal - subtotal * discount / 100 ∧
    newPageFinalTotal exampleItems 10 = 300 ∧
    viewPageTotal 310 10 = 279 := by
  refine ⟨?_, rfl, ?_, ?_⟩
  · have h := foldl_add_eq_sum (fun it : UIQuotationItem => it.total_price) items 0
    simp only [newPageFinalTotal, newPageTotal, h, zero_add]
  · norm_num [newPageFinalTotal, newPageTotal, exampleItems]
  · norm_num [viewPageTotal, viewPageDiscountAmount]

/-! ## Claim C8: dashboard profit -/

/-- The per-quotation dashboard profit term equals the spec's formula:
normalized net total minus normalized vendor cost. -/
theorem quoteProfit_eq_spec (rate : ℚ) (q : QuotationWithItems) :
    quoteProfit rate q
      = specNormalize rate q.currency_type (specNetTotal q)
        - specNormalize rate q.vendor_currency_type q.vendor_cost := by
  unfold quoteProfit specNormalize specNetTotal
  rw [foldl_add_eq_sum (fun it : QuotationItemRecord => it.total_price), zero_add]
  cases q.currency_type <;> cases q.vendor_currency_type <;> simp

/-- C8: the dashboard's total profit is the sum, over exactly the invoiced
quotations, of USD-normalized net total minus USD-normalized vendor cost;
on the spec's example (rate 1500, net 300 USD, cost 100 USD) it is
300000. -/
theorem totalProfit_spec (rate : ℚ) (qs : List QuotationWithItems) :
    totalProfit rate qs = specTotalProfit rate qs ∧
    totalProfit 1500 [exampleInvoicedQuotation] = 300000 := by
  constructor
  · unfold totalProfit specTotalProfit
    rw [foldl_add_eq_sum (quoteProfit rate), zero_add]
    congr 1
    exact List.map_congr_left (fun q _ => quoteProfit_eq_spec rate q)
  · norm_num [totalProfit, quoteProfit, exampleInvoicedQuotation, List.filter]

/-! ## Claim C10: missing exchange rate defaults to 1 -/

/-- C10: with no stored exchange-rate records the lookup returns `none`,
the dashboard turns that into a rate of 1, the profit computation runs
with rate 1 rather than failing or being skipped, and at rate 1 every
quotation's profit is its net total minus vendor cost with USD amounts
passing through numerically unchanged. -/
theorem missing_exchange_rate_defaults_to_one (dateVal : String → ℚ)
    (qs : List QuotationWithItems) (q : QuotationWithItems) :
    getLatestExchangeRate dateVal [] = none ∧
    effectiveRate none = 1 ∧
    dashboardTotalProfit dateVal [] qs = totalProfit 1 qs ∧
    quoteProfit 1 q = specNetTotal q - q.vendor_cost := by
  refine ⟨rfl, rfl, rfl, ?_⟩
  rw [quoteProfit_eq_spec]
  unfold specNormalize
  cases q.currency_type <;> cases q.vendor_currency_type <;> simp

/-! ## Helper lemmas for the reports aggregation -/

/-- Splitting the amount of a head bucket off the total. -/
theorem sumAmount_cons (p : String × TypeStats) (m : List (String × TypeStats)) :
    sumAmount (p :: m) = p.2.totalAmount + sumAmount m := by
  unfold sumAmount
  simp

/-- Creating a bucket on demand adds only a zero amount. -/
theorem sumAmount_ensureKey (m : List (String × TypeStats)) (k : String) :
    sumAmount (ensureKey m k) = sumAmount m := by
  unfold ensureKey
  by_cases h : hasKey m k = true
  · rw [if_pos h]
  · rw [if_neg h]
    unfold sumAmount
    rw [List.map_append, List.sum_append]
    simp

/-- After `ensureKey` the key is present. -/
theorem hasKey_ensureKey (m : List (String × TypeStats)) (k : String) :
    hasKey (ensureKey m k) k = true := by
  unfold ensureKey
  by_cases h : hasKey m k = true
  · rw [if_pos h]
    exact h
  · rw [if_neg h]
    unfold hasKey
    rw [List.any_append]
    simp

/-- Adding an item's stats to a present bucket adds exactly its
`total_price` to the total amount. -/
theorem sumAmount_updateFirst_add (k : String) (it : QuotationItemRecord) :
    ∀ m, hasKey m k = true →
      sumAmount (updateFirst k (addItemStats it) m) = sumAmount m + it.total_price := by
  intro m
  induction m with
  | nil =>
      intro h
      simp [hasKey] at h
  | cons p rest ih =>
      intro h
      unfold updateFirst
      by_cases hp : p.1 = k
      · rw [if_pos hp, sumAmount_cons, sumAmount_cons]
        unfold addItemStats
        simp only
        ring
      · rw [if_neg hp]
        have hrest : hasKey rest k = true := by
          simpa [hasKey, hp] using h
        rw [sumAmount_cons, sumAmount_cons, ih hrest]
        ring

/-- A bucket update that keeps the amount keeps the total. -/
theorem sumAmount_updateFirst_preserve (k : String) (f : TypeStats → TypeStats)
    (hf : ∀ st, (f st).totalAmount = st.totalAmount) :
    ∀ m, sumAmount (updateFirst k f m) = sumAmount m := by
  intro m
  induction m with
  | nil => rfl
  | cons p rest ih =>
      unfold updateFirst
      by_cases hp : p.1 = k
      · rw [if_pos hp, sumAmount_cons, sumAmount_cons, hf]
      · rw [if_neg hp, sumAmount_cons, sumAmount_cons, ih]

/-- Every entry after `updateFirst` is an old entry or an updated old
entry. -/
theorem mem_updateFirst (k : String) (f : TypeStats → TypeStats) :
    ∀ m p, p ∈ updateFirst k f m → p ∈ m ∨ ∃ q, q ∈ m ∧ p = (q.1, f q.2) := by
  intro m
  induction m with
  | nil =>
      intro p hp
      simp [updateFirst] at hp
  | cons a rest ih =>
      intro p hp
      unfold updateFirst at hp
      by_cases ha : a.1 = k
      · rw [if_pos ha] at hp
        rcases List.mem_cons.mp hp with rfl | hp
        · right
          exact ⟨a, List.mem_cons_self a rest, rfl⟩
        · left
          exact List.mem_cons_of_mem a hp
      · rw [if_neg ha] at hp
        rcases List.mem_cons.mp hp with rfl | hp
        · left
          exact List.mem_cons_self _ rest
        · rcases ih p hp with h | ⟨q, hq, rfl⟩
          · left
            exact List.mem_cons_of_mem a h
          · right
            exact ⟨q, List.mem_cons_of_mem a hq, rfl⟩

/-- Every entry after `ensureKey` is an old entry or the fresh zero
bucket. -/
theorem mem_ensureKey (m : List (String × TypeStats)) (k : String) :
    ∀ p ∈ ensureKey m k, p ∈ m ∨ p = (k, ⟨"Unknown", 0, 0, 0⟩) := by
  intro p hp
  unfold ensureKey at hp
  by_cases h : hasKey m k = true
  · rw [if_pos h] at hp
    left
    exact hp
  · rw [if_neg h] at hp
    rcases List.mem_append.mp hp with h1 | h1
    · left
      exact h1
    · right
      simpa using h1

/-- The map part of one aggregation step, with the seen-list branch
resolved. -/
theorem stepItem_fst (qid : String) (acc : List (String × TypeStats) × List String)
    (it : QuotationItemRecord) :
    (stepItem qid acc it).1
      = if acc.2.contains (qid ++ "-" ++ typeIdOf it)
        then updateFirst (typeIdOf it) (addItemStats it) (ensureKey acc.1 (typeIdOf it))
        else updateFirst (typeIdOf it) bumpQuotationCount
          (updateFirst (typeIdOf it) (addItemStats it) (ensureKey acc.1 (typeIdOf it))) := by
  unfold stepItem
  exact apply_ite Prod.fst _ _ _

/-- One aggregation step adds exactly the item's `total_price` to the
total amount over all buckets. -/
theorem sumAmount_stepItem (qid : String) (acc : List (String × TypeStats) × List String)
    (it : QuotationItemRecord) :
    sumAmount (stepItem qid acc it).1 = sumAmount acc.1 + it.total_price := by
  rw [stepItem_fst]
  by_cases h : acc.2.contains (qid ++ "-" ++ typeIdOf it) = true
  · rw [if_pos h, sumAmount_updateFirst_add _ it _ (hasKey_ensureKey _ _),
        sumAmount_ensureKey]
  · rw [if_neg h,
        sumAmount_updateFirst_preserve _ bumpQuotationCount (fun st => rfl) _,
        sumAmount_updateFirst_add _ it _ (hasKey_ensureKey _ _),
        sumAmount_ensureKey]

/-- One aggregation step keeps all amounts nonnegative when the item's
`total_price` is nonnegative. -/
theorem nonneg_stepItem (qid : String) (acc : List (String × TypeStats) × List String)
    (it : QuotationItemRecord) (hit : 0 ≤ it.total_price)
    (hacc : ∀ p ∈ acc.1, 0 ≤ p.2.totalAmount) :
    ∀ p ∈ (stepItem qid acc it).1, 0 ≤ p.2.totalAmount := by
  have hens : ∀ p ∈ ensureKey acc.1 (typeIdOf it), 0 ≤ p.2.totalAmount := by
    intro p hp
    rcases mem_ensureKey acc.1 (typeIdOf it) p hp with h | rfl
    · exact hacc p h
    · exact le_rfl
  have hupd : ∀ p ∈ updateFirst (typeIdOf it) (addItemStats it)
      (ensureKey acc.1 (typeIdOf it)), 0 ≤ p.2.totalAmount := by
    intro p hp
    rcases mem_updateFirst _ _ _ p hp with h | ⟨q, hq, rfl⟩
    · exact hens p h
    · exact add_nonneg (hens q hq) hit
  intro p hp
  rw [stepItem_fst] at hp
  by_cases h : acc.2.contains (qid ++ "-" ++ typeIdOf it) = true
  · rw [if_pos h] at hp
    exact hupd p hp
  · rw [if_neg h] at hp
    rcases mem_updateFirst _ _ _ p hp with h1 | ⟨q, hq, rfl⟩
    · exact hupd p h1
    · exact hupd q hq

/-- Folding one quotation's items adds exactly the sum of their totals. -/
theorem sumAmount_foldItems (qid : String) (items : List QuotationItemRecord) :
    ∀ acc : List (String × TypeStats) × List String,
      sumAmount ((items.foldl (stepItem qid) acc).1)
        = sumAmount acc.1 + (items.map (fun it => it.total_price)).sum := by
  induction items with
  | nil =>
      intro acc
      simp
  | cons x t ih =>
      intro acc
      rw [List.foldl_cons, ih (stepItem qid acc x), sumAmount_stepItem]
      simp only [List.map_cons, List.sum_cons]
      ring

/-- Folding items with nonnegative totals keeps all amounts
nonnegative. -/
theorem nonneg_foldItems (qid : String) (items : List QuotationItemRecord) :
    ∀ acc : List (String × TypeStats) × List String,
      (∀ it ∈ items, 0 ≤ it.total_price) →
      (∀ p ∈ acc.1, 0 ≤ p.2.totalAmount) →
      ∀ p ∈ ((items.foldl (stepItem qid) acc).1), 0 ≤ p.2.totalAmount := by
  induction items with
  | nil =>
      intro acc _ hacc
      exact hacc
  | cons x t ih =>
      intro acc hits hacc
      rw [List.foldl_cons]
      refine ih (stepItem qid acc x) (fun it hit => hits it (List.mem_cons_of_mem x hit)) ?_
      exact nonneg_stepItem qid acc x (hits x (List.mem_cons_self x t)) hacc

/-- Folding all quotations adds exactly the total of all their items. -/
theorem sumAmount_foldQuotations (qs : List QuotationWithItems) :
    ∀ acc : List (String × TypeStats) × List String,
      sumAmount ((qs.foldl (fun acc q => q.quotation_items.foldl (stepItem q.id) acc) acc).1)
        = sumAmount acc.1 + allItemsTotal qs := by
  induction qs with
  | nil =>
      intro acc
      simp [allItemsTotal]
  | cons q t ih =>
      intro acc
      rw [List.foldl_cons, ih, sumAmount_foldItems]
      unfold allItemsTotal
      simp only [List.map_cons, List.sum_cons]
      ring

/-- Folding all quotations keeps all amounts nonnegative when all item
totals are nonnegative. -/
theorem nonneg_foldQuotations (qs : List QuotationWithItems) :
    ∀ acc : List (String × TypeStats) × List String,
      (∀ q ∈ qs, ∀ it ∈ q.quotation_items, 0 ≤ it.total_price) →
      (∀ p ∈ acc.1, 0 ≤ p.2.totalAmount) →
      ∀ p ∈ ((qs.foldl (fun acc q => q.quotation_items.foldl (stepItem q.id) acc) acc).1),
        0 ≤ p.2.totalAmount := by
  induction qs with
  | nil =>
      intro acc _ hacc
      exact hacc
  | cons q t ih =>
      intro acc hqs hacc
      rw [List.foldl_cons]
      refine ih _ (fun q' hq' => hqs q' (List.mem_cons_of_mem q hq')) ?_
      exact nonneg_foldItems q.id q.quotation_items acc
        (hqs q (List.mem_cons_self q t)) hacc

/-- All initial buckets carry amount zero. -/
theorem sumAmount_initStats (itemTypes : List ItemType) :
    sumAmount (initStats itemTypes) = 0 := by
  unfold sumAmount initStats
  rw [List.map_append, List.sum_append]
  have h1 : ((itemTypes.map (fun t => (t.id, (⟨t.name, 0, 0, 0⟩ : TypeStats)))).map
      (fun p => p.2.totalAmount)).sum = 0 := by
    apply List.sum_eq_zero
    intro x hx
    rw [List.map_map] at hx
    obtain ⟨t, -, rfl⟩ := List.mem_map.mp hx
    rfl
  rw [h1]
  simp

/-- All initial bucket amounts are nonnegative. -/
theorem nonneg_initStats (itemTypes : List ItemType) :
    ∀ p ∈ initStats itemTypes, 0 ≤ p.2.totalAmount := by
  intro p hp
  unfold initStats at hp
  rcases List.mem_append.mp hp with h | h
  · obtain ⟨t, -, rfl⟩ := List.mem_map.mp h
    exact le_rfl
  · simp only [List.mem_singleton] at h
    rw [h]

/-- Dropping the buckets with neither positive quantity nor positive
amount keeps the total amount, provided all amounts are nonnegative. -/
theorem sumAmount_filter_pos (m : List (String × TypeStats))
    (hm : ∀ p ∈ m, 0 ≤ p.2.totalAmount) :
    sumAmount (m.filter
        (fun p => decide (0 < p.2.quantity) || decide (0 < p.2.totalAmount)))
      = sumAmount m := by
  induction m with
  | nil => rfl
  | cons p rest ih =>
      have hrest := fun q hq => hm q (List.mem_cons_of_mem p hq)
      rw [List.filter_cons]
      by_cases hp : (decide (0 < p.2.quantity) || decide (0 < p.2.totalAmount)) = true
      · rw [if_pos hp, sumAmount_cons, sumAmount_cons, ih hrest]
      · rw [if_neg hp, sumAmount_cons, ih hrest]
        have h2 : ¬ (0 < p.2.totalAmount) := by
          intro hlt
          exact hp (by simp [hlt])
        have h3 : p.2.totalAmount = 0 :=
          le_antisymm (not_lt.mp h2) (hm p (List.mem_cons_self p rest))
        rw [h3]
        ring

/-- Sorting permutes the buckets, hence keeps the total amount. -/
theorem sumAmount_insertionSort (m : List (String × TypeStats)) :
    sumAmount (m.insertionSort (fun a b => b.2.totalAmount ≤ a.2.totalAmount))
      = sumAmount m := by
  unfold sumAmount
  exact ((List.perm_insertionSort
    (fun a b => b.2.totalAmount ≤ a.2.totalAmount) m).map
      (fun p => p.2.totalAmount)).sum_eq

/-! ## Claim C7: report aggregation total -/

/-- C7: for a date range covering every quotation (and no status filter)
and nonnegative item totals, the sum of `totalAmount` over the retained
report buckets equals the sum of `total_price` over every item of every
quotation, and the retained buckets are sorted descending by amount. -/
theorem reportData_sum (itemTypes : List ItemType) (qs : List QuotationWithItems)
    (inRange : String → Bool)
    (hcover : ∀ q ∈ qs, inRange q.date = true)
    (hpos : ∀ q ∈ qs, ∀ it ∈ q.quotation_items, 0 ≤ it.total_price) :
    sumAmount (reportData itemTypes (filterQuotations inRange "all" qs))
      = allItemsTotal qs ∧
    List.Sorted (fun a b => b.2.totalAmount ≤ a.2.totalAmount)
      (reportData itemTypes (filterQuotations inRange "all" qs)) := by
  have hfilter : filterQuotations inRange "all" qs = qs := by
    unfold filterQuotations
    apply List.filter_eq_self.mpr
    intro q hq
    simp [hcover q hq]
  rw [hfilter]
  constructor
  · have hnn : ∀ p ∈ ((qs.foldl (fun acc q => q.quotation_items.foldl (stepItem q.id) acc)
        ((initStats itemTypes, []) : List (String × TypeStats) × List String)).1),
        0 ≤ p.2.totalAmount :=
      nonneg_foldQuotations qs (initStats itemTypes, []) hpos (nonneg_initStats itemTypes)
    unfold reportData aggregateQuotations
    rw [sumAmount_insertionSort, sumAmount_filter_pos _ hnn, sumAmount_foldQuotations,
        sumAmount_initStats, zero_add]
  · haveI : IsTotal (String × TypeStats) (fun a b => b.2.totalAmount ≤ a.2.totalAmount) :=
      ⟨fun a b => le_total b.2.totalAmount a.2.totalAmount⟩
    haveI : IsTrans (String × TypeStats) (fun a b => b.2.totalAmount ≤ a.2.totalAmount) :=
      ⟨fun a b c h1 h2 => le_trans h2 h1⟩
    unfold reportData
    exact List.sorted_insertionSort _ _

/-- Witness for C7: one item type and the concrete invoiced quotation,
with a date filter that accepts everything. -/
theorem reportData_sum_witness :
    (∀ q ∈ [exampleInvoicedQuotation], (fun (_ : String) => true) q.date = true) ∧
    (∀ q ∈ [exampleInvoicedQuotation], ∀ it ∈ q.quotation_items, 0 ≤ it.total_price) ∧
    sumAmount (reportData [exampleItemType]
        (filterQuotations (fun _ => true) "all" [exampleInvoicedQuotation]))
      = allItemsTotal [exampleInvoicedQuotation] :=
  ⟨by simp, by norm_num [exampleInvoicedQuotation],
   (reportData_sum [exampleItemType] [exampleInvoicedQuotation] (fun _ => true)
     (by simp) (by norm_num [exampleInvoicedQuotation])).1⟩

end QuotationDesktop
